import Mathlib

set_option linter.unusedVariables false

/-!
Shallow embedding of `crates/ra_analysis/src/completion/reference_completion.rs`:
context classification and completion-candidate generation for a name
reference inside a parsed source file.
-/

/-- Syntax node kinds used by the completion code (the relevant subset of
ra_syntax `SyntaxKind`; `BIN_EXPR` stands in for any other kind). -/
inductive SyntaxKind where
  | SOURCE_FILE
  | ITEM_LIST
  | MODULE
  | FN_DEF
  | LAMBDA_EXPR
  | FOR_EXPR
  | WHILE_EXPR
  | LOOP_EXPR
  | IF_EXPR
  | EXPR_STMT
  | PATH
  | PATH_SEGMENT
  | PATH_EXPR
  | NAME_REF
  | NAME
  | BLOCK
  | RET_TYPE
  | CRATE_KW
  | SELF_KW
  | SUPER_KW
  | BIN_EXPR
  deriving DecidableEq

/-- A byte range in the source text (text_unit `TextRange`). -/
structure Range where
  lo : Nat
  hi : Nat
  deriving DecidableEq

/-- `TextRange::is_subrange`: `self` is contained in `other`. -/
def Range.is_subrange (self other : Range) : Bool :=
  decide (other.lo ≤ self.lo ∧ self.hi ≤ other.hi)

/-- An immutable node of the parsed tree: kind tag, byte range, identifier
text for leaf-like nodes (empty otherwise), and structural children. -/
inductive SyntaxNode where
  | mk (kind : SyntaxKind) (range : Range) (text : String) (children : List SyntaxNode)

def SyntaxNode.kind : SyntaxNode → SyntaxKind
  | .mk k _ _ _ => k

def SyntaxNode.range : SyntaxNode → Range
  | .mk _ r _ _ => r

def SyntaxNode.text : SyntaxNode → String
  | .mk _ _ t _ => t

def SyntaxNode.children : SyntaxNode → List SyntaxNode
  | .mk _ _ _ cs => cs

/-- A name-reference node together with its chain of proper ancestors,
innermost first (ending at the file root). -/
structure Focus where
  node : SyntaxNode
  ancestors : List SyntaxNode

/-- The `SyntaxNode::ancestors()` iterator of the reference: the node itself
followed by its proper ancestors, innermost to outermost (the syntax-tree
service's ancestor sequence starts at the node itself). -/
def Focus.ancestorsIncl (nr : Focus) : List SyntaxNode :=
  nr.node :: nr.ancestors

/-- Modelled from the spec: the kind tag of a hir `Path` (outside the given
sources) — a plain relative path, or a path rooted by a `crate`/`self`/`super`
leading qualifier. -/
inductive PathKind where
  | plain
  | crateRoot
  | selfRoot
  | superRoot
  deriving DecidableEq

/-- Modelled from the spec: a hir `Path` — an ordered sequence of named
segments, optionally rooted (`kind`). -/
structure HirPath where
  kind : PathKind
  segments : List String
  deriving DecidableEq

/-- Modelled from the spec: `Path::is_ident` — the "trivial single
identifier" test: a plain path of exactly one segment. -/
def HirPath.is_ident (p : HirPath) : Bool :=
  decide (p.kind = PathKind.plain) && decide (p.segments.length = 1)

/-- The `PATH_SEGMENT` child of a path node (ast `Path::segment`). -/
def path_segment_child (n : SyntaxNode) : Option SyntaxNode :=
  n.children.find? (fun c => decide (c.kind = SyntaxKind.PATH_SEGMENT))

/-- The `PATH` child of a path node (ast `Path::qualifier`). -/
def path_qualifier_child (n : SyntaxNode) : Option SyntaxNode :=
  n.children.find? (fun c => decide (c.kind = SyntaxKind.PATH))

/-- The name carried by a path segment: the text of its `NAME_REF` child. -/
def segment_name (seg : SyntaxNode) : Option String :=
  (seg.children.find? (fun c => decide (c.kind = SyntaxKind.NAME_REF))).map
    SyntaxNode.text

/-- Does the segment consist of the given keyword token? -/
def segment_has_kw (seg : SyntaxNode) (k : SyntaxKind) : Bool :=
  seg.children.any (fun c => decide (c.kind = k))

mutual
/-- Modelled from the spec: hir `Path::from_ast` (outside the given sources):
reconstruct the full path from a path-shaped node.  Segment names are
collected qualifier-first; a `crate`/`self`/`super` keyword segment fixes the
path kind and ends the inward walk; a level without a usable segment makes
the whole reconstruction fail. -/
def from_ast_node : SyntaxNode → Option HirPath
  | .mk _ _ _ cs =>
    match cs.find? (fun c => decide (c.kind = SyntaxKind.PATH_SEGMENT)) with
    | none => none
    | some seg =>
      match segment_name seg with
      | some s =>
        match from_ast_qualifier cs with
        | none => some { kind := PathKind.plain, segments := [s] }
        | some none => none
        | some (some p) => some { kind := p.kind, segments := p.segments ++ [s] }
      | none =>
        if segment_has_kw seg SyntaxKind.CRATE_KW then
          some { kind := PathKind.crateRoot, segments := [] }
        else if segment_has_kw seg SyntaxKind.SELF_KW then
          some { kind := PathKind.selfRoot, segments := [] }
        else if segment_has_kw seg SyntaxKind.SUPER_KW then
          some { kind := PathKind.superRoot, segments := [] }
        else none

/-- Find the first `PATH` child (the qualifier) among the children and
reconstruct it: `none` = no qualifier present, `some r` = qualifier present
with reconstruction result `r`. -/
def from_ast_qualifier : List SyntaxNode → Option (Option HirPath)
  | [] => none
  | c :: rest =>
    if decide (c.kind = SyntaxKind.PATH) then some (from_ast_node c)
    else from_ast_qualifier rest
end

/-- Entry point mirroring `Path::from_ast`. -/
def HirPath.from_ast (n : SyntaxNode) : Option HirPath :=
  from_ast_node n

/-- A completion candidate: display label, optional lookup key, optional
snippet body. -/
structure CompletionItem where
  label : String
  lookup : Option String
  snip : Option String
  deriving DecidableEq

/-- `CompletionItem::new`. -/
def CompletionItem.new (label : String) : CompletionItem :=
  { label := label, lookup := none, snip := none }

/-- Builder `lookup_by`. -/
def CompletionItem.lookup_by (it : CompletionItem) (s : String) : CompletionItem :=
  { it with lookup := some s }

/-- Builder `snippet`. -/
def CompletionItem.withSnippet (it : CompletionItem) (s : String) : CompletionItem :=
  { it with snip := some s }

/-- The `keyword` helper: a completion item for keyword `kw` carrying a
snippet. -/
def keyword (kw snip : String) : CompletionItem :=
  (CompletionItem.new kw).withSnippet snip

/-- One binding entry of a lexical scope (hir `ScopeEntry`): a name plus the
identity of its binding site. -/
structure FnEntry where
  name : String
  binding : Nat
  deriving DecidableEq

/-- Modelled from the spec: the Scope Chain Builder's result (hir `FnScopes`,
outside the given sources) as observed at the reference position: the scope
chain innermost first, each scope an ordered entry list, plus whether the
function declares a `self` parameter. -/
structure FnScopesModel where
  scope_chain : List (List FnEntry)
  self_param : Bool

/-- The stateful `shadowed.insert` filter of `complete_fn`: keep only the
first occurrence of every name (the `FxHashSet` is modelled as the list of
already-seen names). -/
def shadow_filter (seen : List String) : List FnEntry → List FnEntry
  | [] => []
  | e :: es =>
    if e.name ∈ seen then shadow_filter seen es
    else e :: shadow_filter (e.name :: seen) es

/-- `complete_fn`: flatten the scope chain innermost→outermost, suppress
shadowed duplicates, emit one item per surviving entry, then a synthetic
`self` item when the function has a `self` parameter. -/
def complete_fn (scopes : FnScopesModel) : List CompletionItem :=
  (shadow_filter [] scopes.scope_chain.flatten).map
      (fun e => CompletionItem.new e.name)
    ++ (if scopes.self_param then [CompletionItem.new "self"] else [])

/-- `u32::checked_sub` on text offsets. -/
def checked_sub (a b : Nat) : Option Nat :=
  if a < b then none else some (a - b)

mutual
/-- Modelled from the spec: the syntax-tree service's offset-to-node lookup
(`find_node_at_offset`): the innermost node of the wanted kind whose range
contains (or starts at) the offset, children searched before the node
itself, earlier children first. -/
def find_at_node (k : SyntaxKind) (off : Nat) : SyntaxNode → Option SyntaxNode
  | .mk kind r t cs =>
    if decide (r.lo ≤ off ∧ off ≤ r.hi) then
      match find_at_list k off cs with
      | some res => some res
      | none =>
        if decide (kind = k) then some (.mk kind r t cs) else none
    else none

/-- Search a child list left to right. -/
def find_at_list (k : SyntaxKind) (off : Nat) : List SyntaxNode → Option SyntaxNode
  | [] => none
  | c :: rest =>
    match find_at_node k off c with
    | some res => some res
    | none => find_at_list k off rest
end

/-- Entry point mirroring `find_node_at_offset::<T>(file.syntax(), off)`. -/
def find_node_at_offset (k : SyntaxKind) (root : SyntaxNode) (off : Nat) :
    Option SyntaxNode :=
  find_at_node k off root

/-- The two nested lookups of the `else` heuristic: step 2 offset units back
from the reference's start (`checked_sub`, `none` when the reference is too
close to the file start), then the `IF_EXPR` node found at that offset. -/
def else_found (fileRoot : SyntaxNode) (nr : Focus) : Option SyntaxNode :=
  match checked_sub nr.node.range.lo 2 with
  | none => none
  | some off => find_node_at_offset SyntaxKind.IF_EXPR fileRoot off

/-- The `else`/`else if` part of `complete_expr_keywords`: if an `IF_EXPR`
node is found 2 units back and its span ends strictly before the
reference's start, offer the two templates. -/
def else_items (fileRoot : SyntaxNode) (nr : Focus) : List CompletionItem :=
  match else_found fileRoot nr with
  | none => []
  | some if_expr =>
    if decide (if_expr.range.hi < nr.node.range.lo) then
      [keyword "else" "else \x7b$0\x7d", keyword "else if" "else if $0 \x7b\x7d"]
    else []

/-- Is the node kind one of the three loop-like constructs the visitor in
`is_in_loop_body` accepts? -/
def is_loop_kind (k : SyntaxKind) : Bool :=
  decide (k = SyntaxKind.FOR_EXPR) || decide (k = SyntaxKind.WHILE_EXPR)
    || decide (k = SyntaxKind.LOOP_EXPR)

/-- Modelled from the spec: `LoopBodyOwner::loop_body` — the optional body
block child of a loop construct. -/
def loop_body (n : SyntaxNode) : Option SyntaxNode :=
  n.children.find? (fun c => decide (c.kind = SyntaxKind.BLOCK))

/-- The ancestor walk of `is_in_loop_body`: stop (false) at a function or
closure boundary; report true at the first loop-like ancestor whose body
contains the reference's range. -/
def is_in_loop_body_go (r : Range) : List SyntaxNode → Bool
  | [] => false
  | n :: rest =>
    if decide (n.kind = SyntaxKind.FN_DEF) || decide (n.kind = SyntaxKind.LAMBDA_EXPR)
    then false
    else if is_loop_kind n.kind then
      match loop_body n with
      | some body =>
        if r.is_subrange body.range then true else is_in_loop_body_go r rest
      | none => is_in_loop_body_go r rest
    else is_in_loop_body_go r rest

/-- `is_in_loop_body`. -/
def is_in_loop_body (nr : Focus) : Bool :=
  is_in_loop_body_go nr.node.range nr.ancestorsIncl

/-- `FnDef::ret_type`: the `RET_TYPE` child of a function definition. -/
def ret_type (fn_def : SyntaxNode) : Option SyntaxNode :=
  fn_def.children.find? (fun c => decide (c.kind = SyntaxKind.RET_TYPE))

/-- `complete_return`: the snippet is chosen by two booleans — is the
reference the whole of its closest `EXPR_STMT` ancestor, and does the
function declare a return type. -/
def complete_return (fn_def : SyntaxNode) (nr : Focus) : Option CompletionItem :=
  let is_stmt :=
    match nr.ancestorsIncl.find? (fun n => decide (n.kind = SyntaxKind.EXPR_STMT)) with
    | none => false
    | some expr_stmt => decide (expr_stmt.range = nr.node.range)
  let snip :=
    match is_stmt, (ret_type fn_def).isSome with
    | true, true => "return $0;"
    | true, false => "return;"
    | false, true => "return $0"
    | false, false => "return"
  some (keyword "return" snip)

/-- The `continue`/`break` part of `complete_expr_keywords`. -/
def loop_keyword_items (nr : Focus) : List CompletionItem :=
  if is_in_loop_body nr then
    [keyword "continue" "continue", keyword "break" "break"]
  else []

/-- `complete_expr_keywords`: the four unconditional control-flow templates,
then the conditional `else`/`else if`, `continue`/`break`, and `return`
items, in source order.  (The Rust code pushes into the accumulator; here
each generator returns the list of items it appends.) -/
def complete_expr_keywords (fileRoot fn_def : SyntaxNode) (nr : Focus) :
    List CompletionItem :=
  [keyword "if" "if $0 \x7b\x7d", keyword "match" "match $0 \x7b\x7d",
      keyword "while" "while $0 \x7b\x7d", keyword "loop" "loop \x7b$0\x7d"]
    ++ else_items fileRoot nr
    ++ loop_keyword_items nr
    ++ (complete_return fn_def nr).toList

/-- `complete_expr_snippets`: the two fixed debug-print templates. -/
def complete_expr_snippets : List CompletionItem :=
  [(CompletionItem.new "pd").withSnippet "eprintln!(\"$0 = \x7b:?\x7d\", $0);",
    (CompletionItem.new "ppd").withSnippet "eprintln!(\"$0 = \x7b:#?\x7d\", $0);"]

/-- `complete_mod_item_snippets`: the two fixed item-level templates. -/
def complete_mod_item_snippets : List CompletionItem :=
  [((CompletionItem.new "Test function").lookup_by "tfn").withSnippet
      "#[test]\nfn $\x7b1:feature\x7d() \x7b\n    $0\n\x7d",
    (CompletionItem.new "pub(crate)").withSnippet "pub(crate) $0"]

/-- The run of ancestors (the reference itself included) whose range equals
the reference's own range, innermost first. -/
def sameRangeChain (nr : Focus) : List SyntaxNode :=
  nr.ancestorsIncl.takeWhile (fun it => decide (it.range = nr.node.range))

/-- The `.take_while(..).last()` of `classify_name_ref` and of the
`BareIdentInMod` driver branch, before the `.unwrap()`: the outermost
ancestor sharing the reference's exact range. -/
def topSameRange? (nr : Focus) : Option SyntaxNode :=
  (sameRangeChain nr).getLast?

/-- The parent of the outermost same-range ancestor: the first ancestor
after the same-range run. -/
def topParent? (nr : Focus) : Option SyntaxNode :=
  (nr.ancestorsIncl.drop (sameRangeChain nr).length).head?

/-- Is the (optional) parent kind `SOURCE_FILE` or `ITEM_LIST`? -/
def isRootOrItemList (k : Option SyntaxKind) : Bool :=
  decide (k = some SyntaxKind.SOURCE_FILE) || decide (k = some SyntaxKind.ITEM_LIST)

/-- The three mutually exclusive classification results (`NameRefKind`). -/
inductive NameRefKind where
  | localRef (enclosing_fn : Option SyntaxNode)
  | path (p : HirPath)
  | bareIdentInMod

/-- The enclosing-function search of `classify_name_ref`: walk ancestors
until (excluding) a `SOURCE_FILE` or `MODULE` node, returning the first
`FN_DEF` found. -/
def enclosing_fn (nr : Focus) : Option SyntaxNode :=
  (nr.ancestorsIncl.takeWhile
      (fun it =>
        !(decide (it.kind = SyntaxKind.SOURCE_FILE)
          || decide (it.kind = SyntaxKind.MODULE)))).find?
    (fun it => decide (it.kind = SyntaxKind.FN_DEF))

/-- `PathSegment::parent_path`: the parent of the reference's parent
segment, when it is a `PATH` node.  (The ast accessor unwraps; a segment
outside a path cannot arise in a parsed tree, and is mapped to `none`.) -/
def parent_path? (nr : Focus) : Option SyntaxNode :=
  match (nr.ancestors.drop 1).head? with
  | some n => if decide (n.kind = SyntaxKind.PATH) then some n else none
  | none => none

/-- The part of `classify_name_ref` below the bare-identifier test, given
the reference's parent node: when the parent is a path segment, a
non-trivially reconstructed path is a `PathContext`; otherwise (a trivial
single-identifier path, or a failed reconstruction) an unqualified path is a
`LocalRef` with its enclosing function — the Rust code falls through to the
same qualifier test in both cases, written out twice here.  Any other parent
shape is unclassified. -/
def classify_with_parent (nr : Focus) (parent : SyntaxNode) : Option NameRefKind :=
  if decide (parent.kind = SyntaxKind.PATH_SEGMENT) then
    match parent_path? nr with
    | none => none
    | some path_node =>
      match HirPath.from_ast path_node with
      | some p =>
        if p.is_ident then
          if (path_qualifier_child path_node).isNone then
            some (NameRefKind.localRef (enclosing_fn nr))
          else none
        else some (NameRefKind.path p)
      | none =>
        if (path_qualifier_child path_node).isNone then
          some (NameRefKind.localRef (enclosing_fn nr))
        else none
  else none

/-- `classify_name_ref`: bare identifier directly under the file root or an
item list; otherwise classify by the parent's shape. -/
def classify_name_ref (nr : Focus) : Option NameRefKind :=
  if isRootOrItemList ((topParent? nr).map SyntaxNode.kind) then
    some NameRefKind.bareIdentInMod
  else
    match nr.ancestors.head? with
    | none => none
    | some parent => classify_with_parent nr parent

/-- Cancelable outcome of a semantic-database query: `Except.error ()` is
the cancellation signal (hir `Canceled` carries no information). -/
abbrev Cancelable (α : Type) : Type := Except Unit α

/-- Modelled from the spec: a resolved definition (`hir::Def`), collapsed to
the only distinction `complete_path` makes — a module (with its target
module id) versus anything else. -/
inductive Def where
  | moduleDef (target : Nat)
  | item
  deriving DecidableEq

/-- One entry of a module scope: its name, and — when the entry's
visibility comes from a use-declaration — that declaration's source range
(`import.range(db, file_id)` precomputed). -/
structure ModEntry where
  name : String
  importRange : Option Range
  deriving DecidableEq

/-- Modelled from the spec: the semantic-database view used by the driver —
`module.scope`, `module.resolve_path` and `def_id.resolve`, each cancelable.
Modules and definition ids are opaque numerals. -/
structure DB where
  moduleScope : Nat → Cancelable (List ModEntry)
  resolvePath : Nat → HirPath → Cancelable (Option Nat)
  resolveDef : Nat → Cancelable Def

/-- `complete_path`: an empty path completes to nothing; otherwise drop the
trailing (in-progress) segment, resolve the remaining prefix, and only when
it resolves to a module enumerate that module's scope, one item per entry.
Cancellation of any query propagates; every "no match" case is a successful
empty outcome. -/
def complete_path (db : DB) (module : Nat) (path : HirPath) :
    List CompletionItem × Cancelable Unit :=
  if path.segments.isEmpty then ([], Except.ok ())
  else
    match db.resolvePath module { path with segments := path.segments.dropLast } with
    | Except.error c => ([], Except.error c)
    | Except.ok none => ([], Except.ok ())
    | Except.ok (some def_id) =>
      match db.resolveDef def_id with
      | Except.error c => ([], Except.error c)
      | Except.ok (Def.moduleDef target) =>
        match db.moduleScope target with
        | Except.error c => ([], Except.error c)
        | Except.ok entries =>
          (entries.map (fun e => CompletionItem.new e.name), Except.ok ())
      | Except.ok Def.item => ([], Except.ok ())

/-- The module-entry filter of the `LocalRef` driver branch: keep an entry
unless its visibility-granting use-declaration's range `is_subrange` of the
reference's range. -/
def keep_module_entry (nrRange : Range) (e : ModEntry) : Bool :=
  match e.importRange with
  | none => true
  | some r => !(r.is_subrange nrRange)

/-- The items the `LocalRef` branch appends before querying the module
scope: local scope-chain candidates, expression keywords and snippets when
an enclosing function is known, nothing otherwise. -/
def local_candidates (fileRoot : SyntaxNode) (fnScopes : SyntaxNode → FnScopesModel)
    (nr : Focus) (ef : Option SyntaxNode) : List CompletionItem :=
  match ef with
  | some fn_def =>
    complete_fn (fnScopes fn_def) ++ complete_expr_keywords fileRoot fn_def nr
      ++ complete_expr_snippets
  | none => []

/-- The driver `completions`: classify the reference, then produce the
branch's items.  `fnScopes` stands for the external `FnScopes::new` of the
Scope Chain Builder (outside the given sources).  The returned list is the
sequence of writes this call makes to the accumulator, and the second
component the call's cancelable outcome; on cancellation the writes made
before the canceled query are kept and nothing more is written. -/
def completions (db : DB) (module : Nat) (fileRoot : SyntaxNode)
    (fnScopes : SyntaxNode → FnScopesModel) (nr : Focus) :
    List CompletionItem × Cancelable Unit :=
  match classify_name_ref nr with
  | none => ([], Except.ok ())
  | some (NameRefKind.localRef ef) =>
    match db.moduleScope module with
    | Except.error c => (local_candidates fileRoot fnScopes nr ef, Except.error c)
    | Except.ok entries =>
      (local_candidates fileRoot fnScopes nr ef
        ++ (entries.filter (keep_module_entry nr.node.range)).map
            (fun e => CompletionItem.new e.name),
        Except.ok ())
  | some (NameRefKind.path p) => complete_path db module p
  | some NameRefKind.bareIdentInMod =>
    (match (topParent? nr).map SyntaxNode.kind with
      | some SyntaxKind.SOURCE_FILE | some SyntaxKind.ITEM_LIST =>
        complete_mod_item_snippets
      | _ => [],
      Except.ok ())

/-! Concrete example trees used by the witness theorems. -/

/-- Example: `fn f() { x }` — a single-segment identifier in a function body. -/
def xNameA : SyntaxNode := .mk .NAME_REF ⟨10, 11⟩ "x" []

def xSegA : SyntaxNode := .mk .PATH_SEGMENT ⟨10, 11⟩ "" [xNameA]

def xPathA : SyntaxNode := .mk .PATH ⟨10, 11⟩ "" [xSegA]

def xPexprA : SyntaxNode := .mk .PATH_EXPR ⟨10, 11⟩ "" [xPathA]

def xBlockA : SyntaxNode := .mk .BLOCK ⟨8, 13⟩ "" [xPexprA]

def xFnA : SyntaxNode := .mk .FN_DEF ⟨0, 13⟩ "" [xBlockA]

def xRootA : SyntaxNode := .mk .SOURCE_FILE ⟨0, 13⟩ "" [xFnA]

def xFocusA : Focus := ⟨xNameA, [xSegA, xPathA, xPexprA, xBlockA, xFnA, xRootA]⟩

/-- Example: the final segment `b` of the two-segment path `a::b`. -/
def xNameB : SyntaxNode := .mk .NAME_REF ⟨3, 4⟩ "b" []

def xSegB : SyntaxNode := .mk .PATH_SEGMENT ⟨3, 4⟩ "" [xNameB]

def xNameBa : SyntaxNode := .mk .NAME_REF ⟨0, 1⟩ "a" []

def xSegBa : SyntaxNode := .mk .PATH_SEGMENT ⟨0, 1⟩ "" [xNameBa]

def xPathBa : SyntaxNode := .mk .PATH ⟨0, 1⟩ "" [xSegBa]

def xPathB : SyntaxNode := .mk .PATH ⟨0, 4⟩ "" [xPathBa, xSegB]

def xPexprB : SyntaxNode := .mk .PATH_EXPR ⟨0, 4⟩ "" [xPathB]

def xBlockB : SyntaxNode := .mk .BLOCK ⟨0, 9⟩ "" [xPexprB]

def xRootB : SyntaxNode := .mk .SOURCE_FILE ⟨0, 9⟩ "" [xBlockB]

def xFocusB : Focus := ⟨xNameB, [xSegB, xPathB, xPexprB, xBlockB, xRootB]⟩

/-- Example: a bare identifier directly under the file root. -/
def xNameC : SyntaxNode := .mk .NAME_REF ⟨0, 3⟩ "tfn" []

def xRootC : SyntaxNode := .mk .SOURCE_FILE ⟨0, 10⟩ "" [xNameC]

def xFocusC : Focus := ⟨xNameC, [xRootC]⟩

/-- Example: an identifier whose parent is not a path segment. -/
def xNameD : SyntaxNode := .mk .NAME_REF ⟨5, 6⟩ "d" []

def xBinD : SyntaxNode := .mk .BIN_EXPR ⟨0, 9⟩ "" [xNameD]

def xRootD : SyntaxNode := .mk .SOURCE_FILE ⟨0, 20⟩ "" [xBinD]

def xFocusD : Focus := ⟨xNameD, [xBinD, xRootD]⟩

/-- Example: a single-segment identifier in a block with no enclosing
function (classified `LocalRef` with no enclosing function). -/
def xNameE : SyntaxNode := .mk .NAME_REF ⟨2, 6⟩ "qux" []

def xSegE : SyntaxNode := .mk .PATH_SEGMENT ⟨2, 6⟩ "" [xNameE]

def xPathE : SyntaxNode := .mk .PATH ⟨2, 6⟩ "" [xSegE]

def xPexprE : SyntaxNode := .mk .PATH_EXPR ⟨2, 6⟩ "" [xPathE]

def xBlockE : SyntaxNode := .mk .BLOCK ⟨0, 20⟩ "" [xPexprE]

def xRootE : SyntaxNode := .mk .SOURCE_FILE ⟨0, 30⟩ "" [xBlockE]

def xFocusE : Focus := ⟨xNameE, [xSegE, xPathE, xPexprE, xBlockE, xRootE]⟩

/-- A database whose queries always succeed with empty results. -/
def dbEmpty : DB := ⟨fun _ => .ok [], fun _ _ => .ok none, fun _ => .ok .item⟩

/-- A database whose module-scope query holds one entry `e` visible through
a use-declaration spanning bytes 0–10. -/
def dbImported : DB :=
  ⟨fun _ => .ok [⟨"e", some ⟨0, 10⟩⟩], fun _ _ => .ok none, fun _ => .ok .item⟩

/-- A database whose module-scope query reports cancellation. -/
def dbScopeCanceled : DB :=
  ⟨fun _ => .error (), fun _ _ => .ok none, fun _ => .ok .item⟩

/-- A database whose path-resolution query reports cancellation. -/
def dbResolveCanceled : DB :=
  ⟨fun _ => .ok [], fun _ _ => .error (), fun _ => .ok .item⟩

/-- A database whose definition-resolution query reports cancellation. -/
def dbDefCanceled : DB :=
  ⟨fun _ => .ok [], fun _ _ => .ok (some 7), fun _ => .error ()⟩

/-- A database where the prefix resolves to module 3 whose scope query
reports cancellation. -/
def dbTargetScopeCanceled : DB :=
  ⟨fun _ => .error (), fun _ _ => .ok (some 7), fun _ => .ok (.moduleDef 3)⟩

/-- A database where the prefix resolves to module 3 with a one-entry scope. -/
def dbModuleTarget : DB :=
  ⟨fun _ => .ok [⟨"m1", none⟩, ⟨"m2", none⟩], fun _ _ => .ok (some 7),
    fun _ => .ok (.moduleDef 3)⟩

/-- A database where the prefix resolves to a non-module definition. -/
def dbItemTarget : DB :=
  ⟨fun _ => .ok [], fun _ _ => .ok (some 7), fun _ => .ok .item⟩

/-- A trivial external scope builder. -/
def fsEmpty : SyntaxNode → FnScopesModel := fun _ => ⟨[], false⟩

/-- A database agreeing with `dbModuleTarget` on two-segment paths but
canceling on any other path query (used to show full paths are never
resolved). -/
def dbPrefixOnly : DB :=
  ⟨fun _ => .ok [⟨"m1", none⟩, ⟨"m2", none⟩],
    fun _ q => if q.segments.length = 2 then .ok (some 7) else .error (),
    fun _ => .ok (.moduleDef 3)⟩

/-- The claim-side pure snippet table of C6: a function of exactly the two
booleans (is-statement-position, has-return-type). -/
def return_snippet : Bool → Bool → String
  | true, true => "return $0;"
  | true, false => "return;"
  | false, true => "return $0"
  | false, false => "return"

/-- The first boolean of C6: the reference is the entirety of its closest
expression-statement ancestor. -/
def is_stmt_position (nr : Focus) : Bool :=
  match nr.ancestorsIncl.find? (fun n => decide (n.kind = SyntaxKind.EXPR_STMT)) with
  | none => false
  | some expr_stmt => decide (expr_stmt.range = nr.node.range)

/-- The second boolean of C6: the enclosing function declares a return type. -/
def has_ret_type (fn_def : SyntaxNode) : Bool :=
  (ret_type fn_def).isSome

/-- The claim-side condition of C7: some loop-like ancestor reached without
first crossing a function or closure node exposes a body whose range wholly
contains the reference's range. -/
def loop_cond (nr : Focus) : Prop :=
  ∃ n ∈ nr.ancestorsIncl.takeWhile
      (fun m =>
        !(decide (m.kind = SyntaxKind.FN_DEF)
          || decide (m.kind = SyntaxKind.LAMBDA_EXPR))),
    is_loop_kind n.kind = true
      ∧ ∃ body, loop_body n = some body
          ∧ nr.node.range.is_subrange body.range = true

/-- The condition under which `complete_expr_keywords` emits the `else`
templates, as computed by the code. -/
def else_cond (fileRoot : SyntaxNode) (nr : Focus) : Bool :=
  match else_found fileRoot nr with
  | none => false
  | some if_expr => decide (if_expr.range.hi < nr.node.range.lo)

/-- The claim-side suppression predicate of C8 after correction: an entry is
suppressed when its visibility-granting use-declaration's range is contained
in (`is_subrange` of) the reference's range. -/
def suppressed_self_import (nrRange : Range) (e : ModEntry) : Bool :=
  match e.importRange with
  | none => false
  | some r => r.is_subrange nrRange

/-! Lemmas about the shadowing filter of `complete_fn`. -/

theorem shadow_filter_filter_eq (x : String) :
    ∀ (l : List FnEntry) (seen : List String),
      (shadow_filter seen l).filter (fun e => decide (e.name = x)) =
        if x ∈ seen then [] else (l.find? (fun e => decide (e.name = x))).toList := by
  intro l
  induction l with
  | nil => intro seen; by_cases h : x ∈ seen <;> simp [shadow_filter, h]
  | cons e es ih =>
    intro seen
    by_cases hseen : e.name ∈ seen
    · rw [shadow_filter, if_pos hseen, ih seen]
      by_cases hx : x ∈ seen
      · simp [hx]
      · have hne : ¬(e.name = x) := fun h => hx (h ▸ hseen)
        simp [hx, List.find?_cons, hne]
    · rw [shadow_filter, if_neg hseen]
      by_cases hx : e.name = x
      · have hxseen : ¬x ∈ seen := fun h => hseen (hx ▸ h)
        rw [List.filter_cons_of_pos (by simp [hx]), ih (e.name :: seen)]
        simp [hx, hxseen, List.find?_cons]
      · rw [List.filter_cons_of_neg (by simpa using hx), ih (e.name :: seen)]
        have hxe : ¬x = e.name := Ne.symm hx
        by_cases hxs : x ∈ seen
        · simp [hxs, hxe]
        · simp [hxs, hxe, List.find?_cons, hx]

theorem filter_label_map (x : String) (l : List FnEntry) :
    (l.map (fun e => CompletionItem.new e.name)).filter
        (fun it => decide (it.label = x))
      = (l.filter (fun e => decide (e.name = x))).map
          (fun e => CompletionItem.new e.name) := by
  induction l with
  | nil => simp
  | cons e es ih =>
    by_cases hx : e.name = x
    · rw [List.map_cons, List.filter_cons_of_pos (by simp [CompletionItem.new, hx]),
        List.filter_cons_of_pos (by simp [hx]), List.map_cons, ih]
    · rw [List.map_cons, List.filter_cons_of_neg (by simp [CompletionItem.new, hx]),
        List.filter_cons_of_neg (by simp [hx]), ih]

/-- C1: for every function with an outer-scope binding `x` and an inner-scope
rebinding `x`, `complete_fn` at a position inside the inner scope emits
exactly one candidate named `x`, and the surviving scope entry is the inner
binding (the first `x`-named entry of the innermost scope that binds `x`):
the scope chain is walked innermost to outermost and the seen-names set
suppresses every later occurrence of an already-emitted name. -/
theorem complete_fn_shadowing_unique
    (pre mid post : List (List FnEntry)) (inner outer : List FnEntry)
    (sp : Bool) (x : String)
    (hpre : ∀ e ∈ pre.flatten, e.name ≠ x)
    (hinner : ∃ e ∈ inner, e.name = x)
    (houter : ∃ e ∈ outer, e.name = x)
    (hself : x ≠ "self") :
    ((complete_fn ⟨pre ++ inner :: mid ++ outer :: post, sp⟩).filter
        (fun it => decide (it.label = x))).length = 1
    ∧ (shadow_filter [] (pre ++ inner :: mid ++ outer :: post).flatten).filter
        (fun e => decide (e.name = x))
      = (inner.find? (fun e => decide (e.name = x))).toList := by
  have hflat :
      (pre ++ inner :: mid ++ outer :: post).flatten
        = pre.flatten ++ (inner ++ (mid ++ outer :: post).flatten) := by
    simp
  have hprenone :
      pre.flatten.find? (fun e => decide (e.name = x)) = none := by
    apply List.find?_eq_none.mpr
    intro e he
    simpa using hpre e he
  obtain ⟨e₀, he₀, hname₀⟩ := hinner
  have hsome : (inner.find? (fun e => decide (e.name = x))).isSome :=
    List.find?_isSome.mpr ⟨e₀, he₀, by simpa using hname₀⟩
  obtain ⟨e₁, he₁⟩ := Option.isSome_iff_exists.mp hsome
  have hfind :
      ((pre ++ inner :: mid ++ outer :: post).flatten).find?
          (fun e => decide (e.name = x))
        = inner.find? (fun e => decide (e.name = x)) := by
    rw [hflat, List.find?_append, hprenone, Option.none_or, List.find?_append,
      he₁]
    rfl
  have hmain :
      (shadow_filter [] (pre ++ inner :: mid ++ outer :: post).flatten).filter
          (fun e => decide (e.name = x))
        = (inner.find? (fun e => decide (e.name = x))).toList := by
    rw [shadow_filter_filter_eq x _ [], if_neg (by simp), hfind]
  refine ⟨?_, hmain⟩
  have hsingle :
      (shadow_filter [] (pre ++ inner :: mid ++ outer :: post).flatten).filter
          (fun e => decide (e.name = x)) = [e₁] := by
    rw [hmain, he₁]; rfl
  have hsx : ¬("self" = x) := fun h => hself h.symm
  have hselfpart :
      ((if sp then [CompletionItem.new "self"] else []).filter
          (fun it => decide (it.label = x))) = [] := by
    cases sp <;> simp [CompletionItem.new, hsx]
  simp only [complete_fn]
  rw [List.filter_append, List.length_append, filter_label_map, hselfpart,
    hsingle]
  simp

/-- Witness for C1 at a concrete two-scope chain binding `x` twice. -/
theorem complete_fn_shadowing_unique_witness :
    ((complete_fn
          ⟨[] ++ [FnEntry.mk "x" 0] :: [] ++ [FnEntry.mk "x" 1] :: [], false⟩).filter
        (fun it => decide (it.label = "x"))).length = 1
    ∧ (shadow_filter []
          ([] ++ [FnEntry.mk "x" 0] :: [] ++ [FnEntry.mk "x" 1] :: []).flatten).filter
        (fun e => decide (e.name = "x"))
      = ([FnEntry.mk "x" 0].find? (fun e => decide (e.name = "x"))).toList :=
  complete_fn_shadowing_unique [] [] [] [FnEntry.mk "x" 0] [FnEntry.mk "x" 1]
    false "x" (by simp) ⟨FnEntry.mk "x" 0, by simp, rfl⟩
    ⟨FnEntry.mk "x" 1, by simp, rfl⟩ (by decide)

/-- C2: classification is exclusive over the three context kinds: a
single-segment unqualified expression-position identifier inside a function
body is classified `LocalRef` with that function as the enclosing function;
the final segment of a multi-segment path is classified `PathContext` with
the reconstructed segment sequence (`HirPath.from_ast`); an identifier whose
outermost same-range ancestor sits directly under the file root or an item
list is classified `BareTopLevel`; any other parent shape yields `none`. -/
theorem classify_name_ref_cases :
    (∀ (nr : Focus) (f seg pnode : SyntaxNode) (p : HirPath),
        isRootOrItemList ((topParent? nr).map SyntaxNode.kind) = false →
        nr.ancestors.head? = some seg →
        seg.kind = SyntaxKind.PATH_SEGMENT →
        parent_path? nr = some pnode →
        HirPath.from_ast pnode = some p →
        p.is_ident = true →
        path_qualifier_child pnode = none →
        enclosing_fn nr = some f →
        classify_name_ref nr = some (NameRefKind.localRef (some f)))
    ∧ (∀ (nr : Focus) (seg pnode : SyntaxNode) (p : HirPath),
        isRootOrItemList ((topParent? nr).map SyntaxNode.kind) = false →
        nr.ancestors.head? = some seg →
        seg.kind = SyntaxKind.PATH_SEGMENT →
        parent_path? nr = some pnode →
        HirPath.from_ast pnode = some p →
        p.is_ident = false →
        classify_name_ref nr = some (NameRefKind.path p))
    ∧ (∀ (nr : Focus),
        isRootOrItemList ((topParent? nr).map SyntaxNode.kind) = true →
        classify_name_ref nr = some NameRefKind.bareIdentInMod)
    ∧ (∀ (nr : Focus) (par : SyntaxNode),
        isRootOrItemList ((topParent? nr).map SyntaxNode.kind) = false →
        nr.ancestors.head? = some par →
        ¬(par.kind = SyntaxKind.PATH_SEGMENT) →
        classify_name_ref nr = none) := by
  refine ⟨?_, ?_, ?_, ?_⟩
  · intro nr f seg pnode p hbare hpar hseg hpath hfrom hident hqual hfn
    simp only [classify_name_ref, classify_with_parent, hbare, hpar, hpath,
      hfrom, hqual, hfn, hseg, hident]
    simp
  · intro nr seg pnode p hbare hpar hseg hpath hfrom hident
    simp only [classify_name_ref, classify_with_parent, hbare, hpar, hpath,
      hfrom, hseg, hident]
    simp
  · intro nr hbare
    simp only [classify_name_ref, hbare]
    simp
  · intro nr par hbare hpar hseg
    simp only [classify_name_ref, classify_with_parent, hbare, hpar]
    simp [hseg]

/-- Witness for C2: the four classification outcomes at four concrete
trees — `x` inside `fn f`, the final segment of `a::b`, a bare top-level
identifier, and an identifier under a binary expression. -/
theorem classify_name_ref_cases_witness :
    classify_name_ref xFocusA = some (NameRefKind.localRef (some xFnA))
    ∧ classify_name_ref xFocusB
        = some (NameRefKind.path ⟨PathKind.plain, ["a", "b"]⟩)
    ∧ classify_name_ref xFocusC = some NameRefKind.bareIdentInMod
    ∧ classify_name_ref xFocusD = none :=
  ⟨classify_name_ref_cases.1 xFocusA xFnA xSegA xPathA ⟨PathKind.plain, ["x"]⟩
      rfl rfl rfl rfl rfl rfl rfl rfl,
    classify_name_ref_cases.2.1 xFocusB xSegB xPathB ⟨PathKind.plain, ["a", "b"]⟩
      rfl rfl rfl rfl rfl rfl,
    classify_name_ref_cases.2.2.1 xFocusC rfl,
    classify_name_ref_cases.2.2.2 xFocusD xBinD rfl rfl (by decide)⟩

/-- C3: whenever an underlying database query (module-scope lookup, path
resolution, or definition resolution) reports cancellation, the top-level
`completions` entry point returns that cancellation outcome unchanged — it
is never converted into a successful empty result — and after the canceled
query nothing more is written: the returned write list is exactly what was
accumulated before the canceled query. -/
theorem completions_cancellation_propagates :
    (∀ (db : DB) (m : Nat) (file : SyntaxNode) (fs : SyntaxNode → FnScopesModel)
        (nr : Focus) (ef : Option SyntaxNode) (c : Unit),
        classify_name_ref nr = some (NameRefKind.localRef ef) →
        db.moduleScope m = Except.error c →
        completions db m file fs nr
          = (local_candidates file fs nr ef, Except.error c))
    ∧ (∀ (db : DB) (m : Nat) (file : SyntaxNode) (fs : SyntaxNode → FnScopesModel)
        (nr : Focus) (p : HirPath) (c : Unit),
        classify_name_ref nr = some (NameRefKind.path p) →
        p.segments ≠ [] →
        db.resolvePath m { p with segments := p.segments.dropLast }
          = Except.error c →
        completions db m file fs nr = ([], Except.error c))
    ∧ (∀ (db : DB) (m : Nat) (file : SyntaxNode) (fs : SyntaxNode → FnScopesModel)
        (nr : Focus) (p : HirPath) (d : Nat) (c : Unit),
        classify_name_ref nr = some (NameRefKind.path p) →
        p.segments ≠ [] →
        db.resolvePath m { p with segments := p.segments.dropLast }
          = Except.ok (some d) →
        db.resolveDef d = Except.error c →
        completions db m file fs nr = ([], Except.error c))
    ∧ (∀ (db : DB) (m : Nat) (file : SyntaxNode) (fs : SyntaxNode → FnScopesModel)
        (nr : Focus) (p : HirPath) (d tm : Nat) (c : Unit),
        classify_name_ref nr = some (NameRefKind.path p) →
        p.segments ≠ [] →
        db.resolvePath m { p with segments := p.segments.dropLast }
          = Except.ok (some d) →
        db.resolveDef d = Except.ok (Def.moduleDef tm) →
        db.moduleScope tm = Except.error c →
        completions db m file fs nr = ([], Except.error c)) := by
  refine ⟨?_, ?_, ?_, ?_⟩
  · intro db m file fs nr ef c hclass hcancel
    simp only [completions, hclass, hcancel]
  · intro db m file fs nr p c hclass hne hcancel
    have hempty : ¬(p.segments.isEmpty = true) := by
      simpa [List.isEmpty_iff] using hne
    simp only [completions, hclass, complete_path, if_neg hempty, hcancel]
  · intro db m file fs nr p d c hclass hne hres hcancel
    have hempty : ¬(p.segments.isEmpty = true) := by
      simpa [List.isEmpty_iff] using hne
    simp only [completions, hclass, complete_path, if_neg hempty, hres, hcancel]
  · intro db m file fs nr p d tm c hclass hne hres hdef hcancel
    have hempty : ¬(p.segments.isEmpty = true) := by
      simpa [List.isEmpty_iff] using hne
    simp only [completions, hclass, complete_path, if_neg hempty, hres, hdef,
      hcancel]

/-- Witness for C3: the four cancellation sites at concrete inputs. -/
theorem completions_cancellation_propagates_witness :
    completions dbScopeCanceled 0 xRootE fsEmpty xFocusE
      = (local_candidates xRootE fsEmpty xFocusE none, Except.error ())
    ∧ completions dbResolveCanceled 0 xRootB fsEmpty xFocusB
        = ([], Except.error ())
    ∧ completions dbDefCanceled 0 xRootB fsEmpty xFocusB
        = ([], Except.error ())
    ∧ completions dbTargetScopeCanceled 0 xRootB fsEmpty xFocusB
        = ([], Except.error ()) :=
  ⟨completions_cancellation_propagates.1 dbScopeCanceled 0 xRootE fsEmpty
      xFocusE none () rfl rfl,
    completions_cancellation_propagates.2.1 dbResolveCanceled 0 xRootB fsEmpty
      xFocusB ⟨PathKind.plain, ["a", "b"]⟩ () rfl (by simp) rfl,
    completions_cancellation_propagates.2.2.1 dbDefCanceled 0 xRootB fsEmpty
      xFocusB ⟨PathKind.plain, ["a", "b"]⟩ 7 () rfl (by simp) rfl rfl,
    completions_cancellation_propagates.2.2.2 dbTargetScopeCanceled 0 xRootB
      fsEmpty xFocusB ⟨PathKind.plain, ["a", "b"]⟩ 7 3 () rfl (by simp) rfl rfl
      rfl⟩

/-- C4: for every path `a::b::c` handed to `complete_path`, the trailing
segment is removed before resolution: the result depends only on resolving
the truncated prefix (any database agreeing there gives the same result),
and in the successful case the candidates are exactly the entry names of the
namespace the prefix resolves to, one completion item per entry. -/
theorem complete_path_truncates_last_segment :
    (∀ (db db' : DB) (m : Nat) (p : HirPath) (segs : List String) (seg : String),
        p.segments = segs ++ [seg] →
        db.resolvePath m { p with segments := segs }
          = db'.resolvePath m { p with segments := segs } →
        db.resolveDef = db'.resolveDef →
        db.moduleScope = db'.moduleScope →
        complete_path db m p = complete_path db' m p)
    ∧ (∀ (db : DB) (m : Nat) (p : HirPath) (segs : List String) (seg : String)
        (d tm : Nat) (entries : List ModEntry),
        p.segments = segs ++ [seg] →
        db.resolvePath m { p with segments := segs } = Except.ok (some d) →
        db.resolveDef d = Except.ok (Def.moduleDef tm) →
        db.moduleScope tm = Except.ok entries →
        complete_path db m p
          = (entries.map (fun e => CompletionItem.new e.name), Except.ok ())) := by
  constructor
  · intro db db' m p segs seg hsegs hagree hdef hscope
    have hne : ¬((segs ++ [seg]).isEmpty = true) := by simp
    simp only [complete_path, hsegs, List.dropLast_concat, if_neg hne]
    rw [← hagree, ← hdef, ← hscope]
  · intro db m p segs seg d tm entries hsegs hres hdef hscope
    have hne : ¬((segs ++ [seg]).isEmpty = true) := by simp
    simp only [complete_path, hsegs, List.dropLast_concat, if_neg hne]
    simp only [hres, hdef, hscope]

/-- Witness for C4 at the concrete path `a::b::c`: a database canceling on
every non-2-segment path gives the same result as one resolving everything,
and the candidates are the two entries of the resolved module's scope. -/
theorem complete_path_truncates_last_segment_witness :
    complete_path dbModuleTarget 0 ⟨PathKind.plain, ["a", "b", "c"]⟩
      = complete_path dbPrefixOnly 0 ⟨PathKind.plain, ["a", "b", "c"]⟩
    ∧ complete_path dbModuleTarget 0 ⟨PathKind.plain, ["a", "b", "c"]⟩
        = ([CompletionItem.new "m1", CompletionItem.new "m2"], Except.ok ()) :=
  ⟨complete_path_truncates_last_segment.1 dbModuleTarget dbPrefixOnly 0
      ⟨PathKind.plain, ["a", "b", "c"]⟩ ["a", "b"] "c" rfl rfl rfl rfl,
    complete_path_truncates_last_segment.2 dbModuleTarget 0
      ⟨PathKind.plain, ["a", "b", "c"]⟩ ["a", "b"] "c" 7 3
      [⟨"m1", none⟩, ⟨"m2", none⟩] rfl rfl rfl rfl⟩

/-- C5: `complete_path` returns a successful outcome with zero candidates —
never an error — when the path has zero segments, when prefix resolution
yields no definition, and when the resolved definition is not a module. -/
theorem complete_path_no_match_success :
    (∀ (db : DB) (m : Nat) (p : HirPath),
        p.segments = [] →
        complete_path db m p = ([], Except.ok ()))
    ∧ (∀ (db : DB) (m : Nat) (p : HirPath) (segs : List String) (seg : String),
        p.segments = segs ++ [seg] →
        db.resolvePath m { p with segments := segs } = Except.ok none →
        complete_path db m p = ([], Except.ok ()))
    ∧ (∀ (db : DB) (m : Nat) (p : HirPath) (segs : List String) (seg : String)
        (d : Nat),
        p.segments = segs ++ [seg] →
        db.resolvePath m { p with segments := segs } = Except.ok (some d) →
        db.resolveDef d = Except.ok Def.item →
        complete_path db m p = ([], Except.ok ())) := by
  refine ⟨?_, ?_, ?_⟩
  · intro db m p hempty
    simp [complete_path, hempty]
  · intro db m p segs seg hsegs hres
    have hne : ¬((segs ++ [seg]).isEmpty = true) := by simp
    simp only [complete_path, hsegs, List.dropLast_concat, if_neg hne]
    simp only [hres]
  · intro db m p segs seg d hsegs hres hdef
    have hne : ¬((segs ++ [seg]).isEmpty = true) := by simp
    simp only [complete_path, hsegs, List.dropLast_concat, if_neg hne]
    simp only [hres, hdef]

/-- Witness for C5: the three no-match cases at concrete inputs. -/
theorem complete_path_no_match_success_witness :
    complete_path dbEmpty 0 ⟨PathKind.plain, []⟩ = ([], Except.ok ())
    ∧ complete_path dbEmpty 0 ⟨PathKind.plain, ["a", "b"]⟩ = ([], Except.ok ())
    ∧ complete_path dbItemTarget 0 ⟨PathKind.plain, ["a", "b"]⟩
        = ([], Except.ok ()) :=
  ⟨complete_path_no_match_success.1 dbEmpty 0 ⟨PathKind.plain, []⟩ rfl,
    complete_path_no_match_success.2.1 dbEmpty 0 ⟨PathKind.plain, ["a", "b"]⟩
      ["a"] "b" rfl rfl,
    complete_path_no_match_success.2.2 dbItemTarget 0
      ⟨PathKind.plain, ["a", "b"]⟩ ["a"] "b" 7 rfl rfl rfl⟩

theorem complete_return_eq (fn_def : SyntaxNode) (nr : Focus) :
    complete_return fn_def nr
      = some (keyword "return"
          (return_snippet (is_stmt_position nr) (has_ret_type fn_def))) := by
  unfold complete_return is_stmt_position has_ret_type
  cases h : nr.ancestorsIncl.find? (fun n => decide (n.kind = SyntaxKind.EXPR_STMT)) with
  | none => cases hr : (ret_type fn_def).isSome <;> rfl
  | some s =>
    cases hd : decide (s.range = nr.node.range) <;>
      cases hr : (ret_type fn_def).isSome <;> rfl

/-- C6: the return snippet is a pure function of exactly two booleans — is
the reference the entirety of an expression statement, and does the
enclosing function declare a return type — selecting `return $0;`,
`return;`, `return $0` and `return` for (true,true), (true,false),
(false,true), (false,false) respectively. -/
theorem complete_return_two_booleans :
    (∀ (fn_def : SyntaxNode) (nr : Focus),
        complete_return fn_def nr
          = some (keyword "return"
              (return_snippet (is_stmt_position nr) (has_ret_type fn_def))))
    ∧ return_snippet true true = "return $0;"
    ∧ return_snippet true false = "return;"
    ∧ return_snippet false true = "return $0"
    ∧ return_snippet false false = "return" :=
  ⟨complete_return_eq, rfl, rfl, rfl, rfl⟩

theorem is_in_loop_body_go_iff (r : Range) :
    ∀ l : List SyntaxNode,
      is_in_loop_body_go r l = true ↔
        ∃ n ∈ l.takeWhile
            (fun m =>
              !(decide (m.kind = SyntaxKind.FN_DEF)
                || decide (m.kind = SyntaxKind.LAMBDA_EXPR))),
          is_loop_kind n.kind = true
            ∧ ∃ body, loop_body n = some body
                ∧ r.is_subrange body.range = true := by
  intro l
  induction l with
  | nil => simp [is_in_loop_body_go]
  | cons n rest ih =>
    by_cases hfn :
        (decide (n.kind = SyntaxKind.FN_DEF)
          || decide (n.kind = SyntaxKind.LAMBDA_EXPR)) = true
    · rw [is_in_loop_body_go, if_pos hfn, List.takeWhile_cons]
      simp [hfn]
    · have hfn' := Bool.not_eq_true _ ▸ hfn
      rw [is_in_loop_body_go, if_neg hfn, List.takeWhile_cons]
      have hp :
          (!(decide (n.kind = SyntaxKind.FN_DEF)
            || decide (n.kind = SyntaxKind.LAMBDA_EXPR))) = true := by
        simp only [Bool.not_eq_true'] at *
        simp [hfn]
      rw [if_pos hp]
      by_cases hloop : is_loop_kind n.kind = true
      · rw [if_pos hloop]
        cases hb : loop_body n with
        | none => simp [ih, hb]
        | some body =>
          by_cases hsub : r.is_subrange body.range = true
          · simp [hb, hsub, hloop]
          · simp [hb, hsub, ih]
      · rw [if_neg hloop]
        simp [hloop, ih]

theorem is_in_loop_body_iff (nr : Focus) :
    is_in_loop_body nr = true ↔ loop_cond nr :=
  is_in_loop_body_go_iff nr.node.range nr.ancestorsIncl

theorem else_items_eq (file : SyntaxNode) (nr : Focus) :
    else_items file nr
      = if else_cond file nr then
          [keyword "else" "else \x7b$0\x7d", keyword "else if" "else if $0 \x7b\x7d"]
        else [] := by
  unfold else_items else_cond
  cases else_found file nr with
  | none => rfl
  | some ife => cases h : decide (ife.range.hi < nr.node.range.lo) <;> simp [h]

/-- C7: `continue` and `break` are offered exactly once each if and only if,
walking ancestors outward from the reference without first crossing a
function-definition or closure node, some loop-like ancestor (while, for or
loop) exposes a body whose range wholly contains the reference's range; in
particular a reference not contained in any such body gets neither keyword. -/
theorem loop_keywords_iff_in_loop_body :
    ∀ (file fn_def : SyntaxNode) (nr : Focus),
      ((complete_expr_keywords file fn_def nr).countP
          (fun it => decide (it.label = "continue"))
        = if is_in_loop_body nr then 1 else 0)
      ∧ ((complete_expr_keywords file fn_def nr).countP
          (fun it => decide (it.label = "break"))
        = if is_in_loop_body nr then 1 else 0)
      ∧ (is_in_loop_body nr = true ↔ loop_cond nr) := by
  intro file fn_def nr
  refine ⟨?_, ?_, is_in_loop_body_iff nr⟩ <;>
  · simp only [complete_expr_keywords, List.countP_append, else_items_eq,
      loop_keyword_items, complete_return_eq]
    cases h : is_in_loop_body nr <;> cases h2 : else_cond file nr <;>
      simp [keyword, CompletionItem.new, CompletionItem.withSnippet,
        List.countP_cons, List.countP_nil]

theorem else_found_eq (file : SyntaxNode) (nr : Focus) :
    else_found file nr
      = if 2 ≤ nr.node.range.lo then
          find_node_at_offset SyntaxKind.IF_EXPR file (nr.node.range.lo - 2)
        else none := by
  unfold else_found checked_sub
  by_cases h : nr.node.range.lo < 2
  · rw [if_pos h, if_neg (by omega)]
  · rw [if_neg h, if_pos (by omega)]

/-- C9: the `else` and `else if` templates are offered exactly when the
lookup at the position 2 source-units before the reference's start finds a
conditional-expression node whose full span ends strictly before the
reference's start; otherwise (no such node, span not strictly before, or
reference too close to the file start for the backward offset) they are not
offered. -/
theorem else_keywords_iff_adjacent_if :
    ∀ (file fn_def : SyntaxNode) (nr : Focus),
      ((complete_expr_keywords file fn_def nr).countP
          (fun it => decide (it.label = "else"))
        = if else_cond file nr then 1 else 0)
      ∧ ((complete_expr_keywords file fn_def nr).countP
          (fun it => decide (it.label = "else if"))
        = if else_cond file nr then 1 else 0)
      ∧ (else_cond file nr = true ↔
          2 ≤ nr.node.range.lo
          ∧ ∃ if_expr,
              find_node_at_offset SyntaxKind.IF_EXPR file (nr.node.range.lo - 2)
                = some if_expr
              ∧ if_expr.range.hi < nr.node.range.lo) := by
  intro file fn_def nr
  have hiff : else_cond file nr = true ↔
      2 ≤ nr.node.range.lo
      ∧ ∃ if_expr,
          find_node_at_offset SyntaxKind.IF_EXPR file (nr.node.range.lo - 2)
            = some if_expr
          ∧ if_expr.range.hi < nr.node.range.lo := by
    unfold else_cond
    rw [else_found_eq]
    by_cases h2 : 2 ≤ nr.node.range.lo
    · rw [if_pos h2]
      cases hf : find_node_at_offset SyntaxKind.IF_EXPR file (nr.node.range.lo - 2) with
      | none => simp [h2]
      | some ife => simp [h2]
    · rw [if_neg h2]
      simp [h2]
  refine ⟨?_, ?_, hiff⟩ <;>
  · simp only [complete_expr_keywords, List.countP_append, else_items_eq,
      loop_keyword_items, complete_return_eq]
    cases h : is_in_loop_body nr <;> cases h2 : else_cond file nr <;>
      simp [keyword, CompletionItem.new, CompletionItem.withSnippet,
        List.countP_cons, List.countP_nil]

theorem keep_eq_not_suppressed (r : Range) (e : ModEntry) :
    keep_module_entry r e = !suppressed_self_import r e := by
  cases e with
  | mk n imp => cases imp <;> simp [keep_module_entry, suppressed_self_import]

/-- C8 counterexample: a module entry `e` whose only visibility comes from a
use-declaration spanning bytes 0–10 — a range that subsumes the reference's
range 2–6 — is nevertheless emitted by the `LocalRef` branch, because the
code suppresses an entry only when the import's range `is_subrange` of the
reference's range, the opposite containment of the one the claim states. -/
theorem self_import_suppression_counterexample :
    Range.is_subrange xFocusE.node.range ⟨0, 10⟩ = true
    ∧ dbImported.moduleScope 0
        = Except.ok [{ name := "e", importRange := some ⟨0, 10⟩ }]
    ∧ completions dbImported 0 xRootE fsEmpty xFocusE
        = ([CompletionItem.new "e"], Except.ok ()) :=
  ⟨rfl, rfl, rfl⟩

/-- C8 (amended): in a `LocalRef` context, the module entries emitted are
exactly those not suppressed, where an entry is suppressed precisely when
its visibility-granting use-declaration's range is contained in
(`is_subrange` of) the reference's range — not when it subsumes the
reference's range; entries with no import, or whose import range is not
contained in the reference's range, are emitted. -/
theorem self_import_filter_amended :
    ∀ (db : DB) (m : Nat) (file : SyntaxNode) (fs : SyntaxNode → FnScopesModel)
      (nr : Focus) (ef : Option SyntaxNode) (entries : List ModEntry),
      classify_name_ref nr = some (NameRefKind.localRef ef) →
      db.moduleScope m = Except.ok entries →
      completions db m file fs nr
        = (local_candidates file fs nr ef
            ++ (entries.filter
                (fun e => !suppressed_self_import nr.node.range e)).map
              (fun e => CompletionItem.new e.name),
          Except.ok ()) := by
  intro db m file fs nr ef entries hclass hscope
  simp only [completions, hclass, hscope]
  have hfun : keep_module_entry nr.node.range
      = fun e => !suppressed_self_import nr.node.range e :=
    funext (keep_eq_not_suppressed nr.node.range)
  rw [hfun]

/-- Witness for the amended C8 at a concrete input: the entry visible
through the use-declaration spanning 0–10 is kept for the reference at 2–6
(the declaration's range is not contained in the reference's range). -/
theorem self_import_filter_amended_witness :
    completions dbImported 0 xRootE fsEmpty xFocusE
      = (local_candidates xRootE fsEmpty xFocusE none
          ++ (([{ name := "e", importRange := some ⟨0, 10⟩ }] : List ModEntry).filter
              (fun e => !suppressed_self_import xFocusE.node.range e)).map
            (fun e => CompletionItem.new e.name),
        Except.ok ()) :=
  self_import_filter_amended dbImported 0 xRootE fsEmpty xFocusE none
    [{ name := "e", importRange := some ⟨0, 10⟩ }] rfl rfl

theorem getLast?_cons_isSome {α : Type} (a : α) :
    ∀ l : List α, ((a :: l).getLast?).isSome = true := by
  intro l
  induction l generalizing a with
  | nil => rfl
  | cons b t ih => rw [List.getLast?_cons_cons]; exact ih b

theorem classify_with_parent_ne_bare (nr : Focus) (par : SyntaxNode) :
    classify_with_parent nr par ≠ some NameRefKind.bareIdentInMod := by
  intro hcon
  unfold classify_with_parent at hcon
  repeat' split at hcon
  all_goals simp at hcon

theorem classify_bare_elim (nr : Focus)
    (h : classify_name_ref nr = some NameRefKind.bareIdentInMod) :
    isRootOrItemList ((topParent? nr).map SyntaxNode.kind) = true := by
  by_cases hb : isRootOrItemList ((topParent? nr).map SyntaxNode.kind) = true
  · exact hb
  · exfalso
    unfold classify_name_ref at h
    rw [if_neg hb] at h
    cases hh : nr.ancestors.head? with
    | none => rw [hh] at h; exact Option.noConfusion h
    | some par => rw [hh] at h; exact classify_with_parent_ne_bare nr par h

/-- C10: the chain of ancestors whose range equals the reference's own range
is never empty — it contains at least the reference node itself, since the
ancestor sequence starts at the node — so the `.last().unwrap()` used by
both the classifier and the `BareIdentInMod` driver branch never panics
(`topSameRange?` is always `some`), and the driver's re-check of the
outermost same-range ancestor's parent kind agrees with the classification
already made: a reference classified `BareIdentInMod` always reaches the
item-snippet arm. -/
theorem top_same_range_never_panics :
    (∀ nr : Focus,
        sameRangeChain nr ≠ [] ∧ (topSameRange? nr).isSome = true)
    ∧ (∀ (db : DB) (m : Nat) (file : SyntaxNode)
        (fs : SyntaxNode → FnScopesModel) (nr : Focus),
        classify_name_ref nr = some NameRefKind.bareIdentInMod →
        completions db m file fs nr
          = (complete_mod_item_snippets, Except.ok ())) := by
  constructor
  · intro nr
    have hchain : sameRangeChain nr
        = nr.node
            :: nr.ancestors.takeWhile (fun it => decide (it.range = nr.node.range)) := by
      unfold sameRangeChain Focus.ancestorsIncl
      rw [List.takeWhile_cons, if_pos (by simp)]
    constructor
    · rw [hchain]; exact List.cons_ne_nil _ _
    · unfold topSameRange?
      rw [hchain]
      exact getLast?_cons_isSome _ _
  · intro db m file fs nr hclass
    have hbare := classify_bare_elim nr hclass
    simp only [completions, hclass]
    unfold isRootOrItemList at hbare
    rcases (Bool.or_eq_true _ _).mp hbare with h | h
    · rw [of_decide_eq_true h]
    · rw [of_decide_eq_true h]

/-- Witness for C10: the same-range chain at the concrete bare top-level
reference, and the driver emitting the item snippets there. -/
theorem top_same_range_never_panics_witness :
    (sameRangeChain xFocusC ≠ [] ∧ (topSameRange? xFocusC).isSome = true)
    ∧ completions dbEmpty 0 xRootC fsEmpty xFocusC
        = (complete_mod_item_snippets, Except.ok ()) :=
  ⟨top_same_range_never_panics.1 xFocusC,
    top_same_range_never_panics.2 dbEmpty 0 xRootC fsEmpty xFocusC rfl⟩
